import Mathlib

/-!
Verification of the swarm-verifier core.

Shallow embedding of the swarm-verifier repository:

* the on-chain `SwarmChallenge` commit-reveal contract (Solidity source quoted
  in the repository README),
* the off-chain dispatcher (`src/services/dispatcher.ts`, v2),
* the challenge generator's nonce (`src/services/challenger.ts`),
* the scoring engine (`src/services/analyzer.ts`).

All definitions are translated from the source.  Ledger block heights,
timestamps and latencies are natural numbers; `bytes32` words and addresses
are natural numbers with `0` playing the role of `bytes32(0)` / the zero
address; JavaScript floating-point arithmetic in the scoring engine is
idealised as real arithmetic; a reverting contract call is an
`Except.error` (the caller's state is unchanged because the step function
returns no new state in that case).
-/

namespace SwarmContract

/-- Values of `bytes32` (challenge ids, prompt hashes, commit hashes, answers,
salts), modelled as naturals; `0` is `bytes32(0)`. -/
abbrev Word := Nat

/-- An Ethereum address, modelled as a natural; `0` is the zero address. -/
abbrev Addr := Nat

/-- The `Challenge` struct of the `SwarmChallenge` contract. -/
structure ChallengeRec where
  promptHash : Word
  startBlock : Nat
  commitDeadline : Nat
  revealDeadline : Nat
  verifier : Addr
  finalized : Bool
  score : Nat
  deriving DecidableEq

/-- The all-zero `Challenge` struct: the default value of the
`challenges` mapping for an id that was never created. -/
def ChallengeRec.zero : ChallengeRec :=
  { promptHash := 0, startBlock := 0, commitDeadline := 0, revealDeadline := 0
    verifier := 0, finalized := false, score := 0 }

/-- The `Commitment` struct of the `SwarmChallenge` contract. -/
structure Commitment where
  commitHash : Word
  commitBlock : Nat
  revealedAnswer : Word
  revealed : Bool
  deriving DecidableEq

/-- The all-zero `Commitment` struct (mapping default). -/
def Commitment.zero : Commitment :=
  { commitHash := 0, commitBlock := 0, revealedAnswer := 0, revealed := false }

/-- Contract storage: the `challenges` and `commitments` mappings and the
`participants` array per challenge.  Solidity mappings are total functions
whose default entry is the all-zero struct. -/
structure ContractState where
  challenges : Word → ChallengeRec
  commitments : Word → Addr → Commitment
  participants : Word → List Addr

/-- Whether a contract call succeeded (`Except.error` models `revert`). -/
def callOk {ε α : Type} : Except ε α → Bool
  | .ok _ => true
  | .error _ => false

/-- The operation `SwarmChallenge.commit(challengeId, commitHash)`: the `require` chain and
the storage writes, translated clause by clause from the contract source. -/
def commit (st : ContractState) (blockNumber : Nat) (sender : Addr)
    (challengeId : Word) (commitHash : Word) : Except String ContractState :=
  let c := st.challenges challengeId
  if ¬ c.startBlock > 0 then .error "Challenge does not exist"
  else if ¬ blockNumber ≤ c.commitDeadline then .error "Commit phase ended"
  else if ¬ (st.commitments challengeId sender).commitHash = 0 then
    .error "Already committed"
  else .ok
    { st with
      commitments := fun id a =>
        if id = challengeId ∧ a = sender then
          { commitHash := commitHash, commitBlock := blockNumber
            revealedAnswer := 0, revealed := false }
        else st.commitments id a
      participants := fun id =>
        if id = challengeId then st.participants id ++ [sender]
        else st.participants id }

/-- The operation `SwarmChallenge.reveal(challengeId, answer, salt)`.  The contract hashes
`keccak256(abi.encodePacked(answer, salt))`; the hash function is threaded as
the abstract parameter `keccakPair`. -/
def reveal (keccakPair : Word → Word → Word) (st : ContractState)
    (blockNumber : Nat) (sender : Addr) (challengeId : Word)
    (answer salt : Word) : Except String ContractState :=
  let c := st.challenges challengeId
  if ¬ c.startBlock > 0 then .error "Challenge does not exist"
  else if ¬ blockNumber > c.commitDeadline then .error "Commit phase not ended"
  else if ¬ blockNumber ≤ c.revealDeadline then .error "Reveal phase ended"
  else
    let comm := st.commitments challengeId sender
    if comm.commitHash = 0 then .error "Not committed"
    else if comm.revealed then .error "Already revealed"
    else if ¬ keccakPair answer salt = comm.commitHash then
      .error "Invalid reveal"
    else .ok
      { st with
        commitments := fun id a =>
          if id = challengeId ∧ a = sender then
            { comm with revealedAnswer := answer, revealed := true }
          else st.commitments id a }

/-- The constant `type(uint64).max`, the initial value of `minBlock` in `finalize`. -/
def UINT64_MAX : Nat := 2 ^ 64 - 1

/-- The metrics loop of `finalize`: folds `(minBlock, maxBlock,
revealedCount)` over the participant array exactly as the `for` loop does. -/
def finalizeLoop (st : ContractState) (challengeId : Word) :
    List Addr → Nat × Nat × Nat → Nat × Nat × Nat
  | [], acc => acc
  | a :: rest, (minB, maxB, revCnt) =>
    let comm := st.commitments challengeId a
    finalizeLoop st challengeId rest
      (if comm.commitBlock < minB then comm.commitBlock else minB,
       if comm.commitBlock > maxB then comm.commitBlock else maxB,
       if comm.revealed then revCnt + 1 else revCnt)

/-- The block-spread bands of `finalize`:
spread 0-2 gives 100, 3-5 gives 80, 6-10 gives 60, more gives 40. -/
def spreadScoreOf (blockSpread : Nat) : Nat :=
  if blockSpread ≤ 2 then 100
  else if blockSpread ≤ 5 then 80
  else if blockSpread ≤ 10 then 60
  else 40

/-- The operation `SwarmChallenge.finalize(challengeId)`.  All arithmetic is the contract's
unsigned integer arithmetic: `/` is Solidity integer division and the
`uint8` cast of the reveal rate is `% 256`. -/
def finalize (st : ContractState) (blockNumber : Nat) (sender : Addr)
    (challengeId : Word) : Except String ContractState :=
  let c := st.challenges challengeId
  if ¬ c.startBlock > 0 then .error "Challenge does not exist"
  else if ¬ blockNumber > c.revealDeadline then .error "Reveal phase not ended"
  else if c.finalized then .error "Already finalized"
  else if ¬ sender = c.verifier then .error "Only verifier can finalize"
  else
    let parts := st.participants challengeId
    let participantCount := parts.length
    if participantCount = 0 then
      .ok
        { st with
          challenges := fun id =>
            if id = challengeId then { c with finalized := true, score := 0 }
            else st.challenges id }
    else
      let m := finalizeLoop st challengeId parts (UINT64_MAX, 0, 0)
      let blockSpread := m.2.1 - m.1
      let spreadScore := spreadScoreOf blockSpread
      let revealScore := m.2.2 * 100 / participantCount % 256
      let finalScore := spreadScore / 2 + revealScore / 2
      .ok
        { st with
          challenges := fun id =>
            if id = challengeId then
              { c with finalized := true, score := finalScore }
            else st.challenges id }

/-- The recorded score of the challenge `cid` after a call, when the call
succeeded. -/
def scoreAfter (r : Except String ContractState) (cid : Word) : Option Nat :=
  match r with
  | .ok st => some ((st.challenges cid).score)
  | .error _ => none

/-- The commit blocks of the participants of `cid`, in participation order:
what `finalize` takes its minimum and maximum over. -/
def commitBlocksOf (st : ContractState) (cid : Word) : List Nat :=
  (st.participants cid).map fun a => (st.commitments cid a).commitBlock

/-- The number of participants of `cid` that have revealed: what `finalize`
counts in its loop. -/
def revealedCountOf (st : ContractState) (cid : Word) : Nat :=
  (st.participants cid).countP fun a => (st.commitments cid a).revealed

/-! Example states. -/

/-- A state with one live challenge (id 1, commit deadline at block 5) and no
commitments yet. -/
def stCommitEx : ContractState :=
  { challenges := fun id =>
      if id = 1 then
        { promptHash := 5, startBlock := 1, commitDeadline := 5
          revealDeadline := 10, verifier := 9, finalized := false, score := 0 }
      else ChallengeRec.zero
    commitments := fun _ _ => Commitment.zero
    participants := fun _ => [] }

/-- A state with one live challenge (id 1) in its reveal window where agent 2
has committed hash 42 at block 3 and not yet revealed. -/
def stRevealW : ContractState :=
  { challenges := fun id =>
      if id = 1 then
        { promptHash := 5, startBlock := 1, commitDeadline := 5
          revealDeadline := 10, verifier := 9, finalized := false, score := 0 }
      else ChallengeRec.zero
    commitments := fun id a =>
      if id = 1 ∧ a = 2 then
        { commitHash := 42, commitBlock := 3, revealedAnswer := 0
          revealed := false }
      else Commitment.zero
    participants := fun id => if id = 1 then [2] else [] }

/-- A state past the reveal deadline of challenge 1 with four participants
(addresses 11-14) that all committed at block 5, of which only 11 revealed. -/
def stFinEx : ContractState :=
  { challenges := fun id =>
      if id = 1 then
        { promptHash := 5, startBlock := 1, commitDeadline := 5
          revealDeadline := 10, verifier := 9, finalized := false, score := 0 }
      else ChallengeRec.zero
    commitments := fun id a =>
      if id = 1 ∧ 11 ≤ a ∧ a ≤ 14 then
        { commitHash := 7, commitBlock := 5, revealedAnswer := 0
          revealed := a == 11 }
      else Commitment.zero
    participants := fun id => if id = 1 then [11, 12, 13, 14] else [] }

end SwarmContract

namespace Swarm

/-- An agent as used by the dispatcher: id, display name, optional transport
endpoint (the TypeScript field is possibly absent). -/
structure Agent where
  id : String
  name : String
  endpoint : Option String
  deriving DecidableEq

/-- A challenge record (from src/services/challenger.ts). -/
structure Challenge where
  id : String
  type : String
  prompt : String
  createdAt : Nat
  expiresAt : Nat
  targetAgents : List String
  deriving DecidableEq

/-- A per-agent challenge response.  `error` is `none` when the TypeScript
optional field is absent (the code only ever sets non-empty error strings, so
JavaScript truthiness of `r.error` coincides with `isSome`). -/
structure ChallengeResponse where
  challengeId : String
  agentId : String
  response : String
  receivedAt : Nat
  latencyMs : Nat
  selfReportedMs : Option Nat := none
  error : Option String := none
  deriving DecidableEq

/-- JavaScript `a || b` on an optional string field: an absent or empty
(falsy) string falls through to `b`. -/
def jsOrS : Option String → String → String
  | some s, b => if s = "" then b else s
  | none, b => b

/-- JavaScript `a || b` on an optional number field: an absent or zero
(falsy) number falls through to `b`. -/
def jsOrNat : Option Nat → Nat → Nat
  | some n, b => if n = 0 then b else n
  | none, b => b

/-! The challenge generator nonce (src/services/challenger.ts).

`generateNonce` is `randomBytes(4).toString('hex')`: four bytes from the
crypto-strength generator, hex encoded.  The random source is threaded as an
explicit byte stream `src`. -/

/-- Lower-case hexadecimal digit for a value `< 16`. -/
def hexDigit (n : Nat) : Char :=
  if n < 10 then Char.ofNat (48 + n) else Char.ofNat (87 + n)

/-- One byte as two lower-case hex characters (Node's Buffer hex encoding). -/
def byteToHex (b : Fin 256) : String :=
  String.mk [hexDigit (b.val / 16), hexDigit (b.val % 16)]

/-- Hex encoding of a byte list. -/
def bytesToHex (bs : List (Fin 256)) : String :=
  String.join (bs.map byteToHex)

/-- The byte source `crypto.randomBytes(n)`: the first `n` bytes of the random source. -/
def randomBytes (n : Nat) (src : Nat → Fin 256) : List (Fin 256) :=
  (List.range n).map src

/-- The nonce `generateNonce()`: `randomBytes(4).toString('hex')`. -/
def generateNonce (src : Nat → Fin 256) : String :=
  bytesToHex (randomBytes 4 src)

/-- The nonce as a function of the only randomness it consumes: the first
four bytes of the source.  `generateNonce src = nonceOfBytes (src 0..3)`. -/
def nonceOfBytes (b : Fin 4 → Fin 256) : String :=
  bytesToHex [b 0, b 1, b 2, b 3]

/-- The outbound per-agent challenge payload built by `createChallengePayload`
in the v2 dispatcher; ambient time and randomness are threaded as `now` and
`src`. -/
structure ChallengePayload where
  version : String
  challengeId : String
  type : String
  prompt : String
  nonce : String
  timestamp : Nat
  verifierId : String

/-- The payload builder `createChallengePayload(challenge)` of the v2 dispatcher. -/
def createChallengePayload (src : Nat → Fin 256) (now : Nat)
    (challenge : Challenge) : ChallengePayload :=
  { version := "0.1", challengeId := challenge.id, type := "text"
    prompt := challenge.prompt, nonce := generateNonce src, timestamp := now
    verifierId := "pvtclawn.base.eth" }

/-! The dispatcher, v2 (src/services/dispatcher.ts).

The network is modelled as a function from endpoint URL to the outcome of a
POST to that URL: a network-level failure (fetch rejecting, which also covers
a response body that fails to parse as JSON), an HTTP non-success status, or
an HTTP success carrying the parsed JSON body and the
`X-SVP-Response-Time` header.  Each outcome carries the wall-clock duration
the call would take if not aborted; the `AbortController` timer cancels an
attempt `timeoutMs` after that attempt starts, so the effective duration of
an attempt is at most `timeoutMs` and a success is delivered only if the
call completes within `timeoutMs`. -/

/-- The parsed JSON body of a successful response, with the fields the
dispatcher reads: `data.response || data.message || data.content ||
JSON.stringify(data)` and `data.processingTime`. -/
structure ResponseData where
  response : Option String
  message : Option String
  content : Option String
  stringified : String
  processingTime : Option Nat
  deriving DecidableEq

/-- The response text the dispatcher extracts from a success payload. -/
def responseTextOf (d : ResponseData) : String :=
  jsOrS d.response (jsOrS d.message (jsOrS d.content d.stringified))

/-- Outcome of one un-aborted POST to one endpoint URL. -/
inductive AttemptOutcome where
  | netError (durationMs : Nat)
  | httpFail (durationMs : Nat)
  | httpOk (durationMs : Nat) (data : ResponseData) (headerMs : Nat)
  deriving DecidableEq

/-- The variant list `getEndpointVariants`: the ordered list of endpoint path variants tried
for an agent (`baseEndpoint.replace(/\/$/, '')` strips one trailing slash). -/
def getEndpointVariants (baseEndpoint : String) : List String :=
  let base := if baseEndpoint.endsWith "/" then baseEndpoint.dropRight 1
              else baseEndpoint
  [base ++ "/.well-known/svp-challenge",
   base ++ "/api/challenge",
   base ++ "/challenge",
   base ++ "/verify",
   base]

/-- The `for (const endpoint of endpoints)` loop of `challengeAgent` (v2) as
a timed execution: given the current clock `t`, try each variant in order,
stop at the first HTTP success, abort any attempt `timeoutMs` after its
start.  Returns the success payload (if any), the clock when the loop ends,
and the list of `(start, end)` intervals of the attempts made. -/
def runVariants (net : String → AttemptOutcome) (timeoutMs : Nat) :
    List String → Nat → Option (ResponseData × Nat) × Nat × List (Nat × Nat)
  | [], t => (none, t, [])
  | e :: rest, t =>
    match net e with
    | .httpOk d data hdr =>
      if d ≤ timeoutMs then (some (data, hdr), t + d, [(t, t + d)])
      else
        let r := runVariants net timeoutMs rest (t + timeoutMs)
        (r.1, r.2.1, (t, t + timeoutMs) :: r.2.2)
    | .httpFail d =>
      let el := min d timeoutMs
      let r := runVariants net timeoutMs rest (t + el)
      (r.1, r.2.1, (t, t + el) :: r.2.2)
    | .netError d =>
      let el := min d timeoutMs
      let r := runVariants net timeoutMs rest (t + el)
      (r.1, r.2.1, (t, t + el) :: r.2.2)

/-- The per-agent task `challengeAgent` (v2): one response per agent, plus (for analysis) the
attempt intervals.  `startTime` is the `Date.now()` at entry. -/
def challengeAgent (net : String → AttemptOutcome) (startTime timeoutMs : Nat)
    (agent : Agent) (challenge : Challenge) :
    ChallengeResponse × List (Nat × Nat) :=
  match agent.endpoint with
  | none =>
    ({ challengeId := challenge.id, agentId := agent.id, response := ""
       receivedAt := startTime, latencyMs := 0
       error := some "No endpoint configured" }, [])
  | some ep =>
    let r := runVariants net timeoutMs (getEndpointVariants ep) startTime
    match r.1 with
    | some (data, hdr) =>
      ({ challengeId := challenge.id, agentId := agent.id
         response := responseTextOf data, receivedAt := r.2.1
         latencyMs := r.2.1 - startTime
         selfReportedMs := some (jsOrNat data.processingTime hdr) }, r.2.2)
    | none =>
      ({ challengeId := challenge.id, agentId := agent.id, response := ""
         receivedAt := r.2.1, latencyMs := r.2.1 - startTime
         error := some "All endpoint variants failed" }, r.2.2)

/-- The response list of `dispatchChallenge` (v2): one concurrent
`challengeAgent` task per agent, all started at the dispatch time `t0`,
joined by `Promise.all`. -/
def dispatchResponses (net : String → AttemptOutcome) (t0 : Nat)
    (agents : List Agent) (challenge : Challenge) (timeoutMs : Nat) :
    List ChallengeResponse :=
  agents.map fun a => (challengeAgent net t0 timeoutMs a challenge).1

/-! The scoring engine (src/services/analyzer.ts).

JavaScript double arithmetic is idealised as real arithmetic.  `Math.sqrt`
is `Real.sqrt`, `Math.pow (x, 2)` is `x ^ 2`, `Math.max` is `max`,
`Math.round` is `jsRound` below. -/

/-- The successful responses as filtered by `scoreResponseTime`,
`scoreTimeVariance`, `scoreParticipation` and the dispatcher:
`responses.filter(r => !r.error)`. -/
def successNoErr (rs : List ChallengeResponse) : List ChallengeResponse :=
  rs.filter fun r => r.error.isNone

/-- The successful responses as filtered by `scoreConsistency`:
`responses.filter(r => !r.error && r.response)` — JavaScript truthiness of
`r.response` additionally requires a non-empty text. -/
def successNonEmpty (rs : List ChallengeResponse) : List ChallengeResponse :=
  rs.filter fun r => r.error.isNone && r.response != ""

/-- JavaScript `reduce((a,b) => a+b)/length`: the mean of a list (an empty
list would divide by zero; every use below is guarded by the code's own
length checks). -/
noncomputable def listMean (l : List ℝ) : ℝ := l.sum / l.length

/-- JavaScript `Math.round`: round half toward positive infinity. -/
noncomputable def jsRound (x : ℝ) : ℤ := ⌊x + 1 / 2⌋

/-- The sub-score `scoreResponseTime(responses)`. -/
noncomputable def scoreResponseTime (rs : List ChallengeResponse) : ℝ :=
  let successful := successNoErr rs
  if successful.length = 0 then 0
  else
    let avgLatency := listMean (successful.map fun r => (r.latencyMs : ℝ))
    if avgLatency < 500 then 100
    else if avgLatency < 2000 then 80 + (2000 - avgLatency) / 75
    else if avgLatency < 5000 then 50 + (5000 - avgLatency) / 100
    else max 0 (50 - (avgLatency - 5000) / 200)

/-- The sub-score `scoreTimeVariance(responses)`. -/
noncomputable def scoreTimeVariance (rs : List ChallengeResponse) : ℝ :=
  let successful := successNoErr rs
  if successful.length < 2 then 50
  else
    let latencies := successful.map fun r => (r.latencyMs : ℝ)
    let avg := listMean latencies
    let variance :=
      ((latencies.map fun l => (l - avg) ^ 2).sum) / (latencies.length : ℝ)
    let stdDev := Real.sqrt variance
    let cv := stdDev / avg
    if cv < 0.1 then 100
    else if cv < 0.3 then 80 + (0.3 - cv) * 100
    else if cv < 0.5 then 60 + (0.5 - cv) * 100
    else if cv < 1.0 then 30 + (1.0 - cv) * 60
    else max 0 (30 - (cv - 1.0) * 30)

/-- JavaScript `String.prototype.toLowerCase`, per character. -/
def lowerString (s : String) : String := String.mk (s.data.map Char.toLower)

/-- Helper for `split(/\s+/)`: split a character list at maximal runs of
whitespace, JavaScript style (a leading or trailing run contributes an empty
field, and the empty string yields one empty field).  `acc` is the current
field read so far (reversed), `inWs` records whether the previous character
belonged to a whitespace run. -/
def splitWsAux : List Char → List Char → Bool → List (List Char)
  | [], acc, _ => [acc.reverse]
  | c :: rest, acc, inWs =>
    if c.isWhitespace then
      if inWs then splitWsAux rest [] true
      else acc.reverse :: splitWsAux rest [] true
    else splitWsAux rest (c :: acc) false

/-- JavaScript `s.split(/\s+/)`. -/
def jsSplitWhitespace (s : String) : List String :=
  (splitWsAux s.data [] false).map fun cs => String.mk cs

/-- The token set `new Set(r.response.toLowerCase().split(/\s+/))` used by
`scoreConsistency`. -/
def tokensOf (s : String) : Finset String :=
  (jsSplitWhitespace (lowerString s)).toFinset

/-- All unordered pairs `(l[i], l[j])` with `i < j`, in the order of the two
nested `for` loops of `scoreConsistency`. -/
def listPairs {α : Type} : List α → List (α × α)
  | [] => []
  | x :: xs => (xs.map fun y => (x, y)) ++ listPairs xs

/-- The sub-score `scoreConsistency(responses)`. -/
noncomputable def scoreConsistency (rs : List ChallengeResponse) : ℝ :=
  let successful := successNonEmpty rs
  if successful.length < 2 then 50
  else
    let lengths := successful.map fun r => (r.response.length : ℝ)
    let avgLength := listMean lengths
    let lengthVariance :=
      ((lengths.map fun l => (l - avgLength) ^ 2).sum) / (lengths.length : ℝ)
    let lengthStdDev := Real.sqrt lengthVariance
    let lengthCV := if avgLength > 0 then lengthStdDev / avgLength else 1
    let tokens := successful.map fun r => tokensOf r.response
    let pairs := (listPairs tokens).filter fun p => (p.1 ∪ p.2).card ≠ 0
    let overlapScore :=
      (pairs.map fun p => ((p.1 ∩ p.2).card : ℝ) / ((p.1 ∪ p.2).card : ℝ)).sum
    let comparisons := pairs.length
    let avgOverlap := if comparisons > 0 then overlapScore / comparisons else 0
    let lengthScore := max 0 (100 - lengthCV * 100)
    let overlapScoreNorm := avgOverlap * 100
    lengthScore * 0.4 + overlapScoreNorm * 0.6

/-- The sub-score `scoreParticipation(responses, totalAgents)`. -/
noncomputable def scoreParticipation (rs : List ChallengeResponse)
    (totalAgents : Nat) : ℝ :=
  ((successNoErr rs).length : ℝ) / totalAgents * 100

/-- The three-way verdict. -/
inductive Verdict where
  | genuine
  | suspicious
  | likely_fake
  deriving DecidableEq

/-- The verdict mapping `getVerdict(score)`. -/
noncomputable def getVerdict (score : ℝ) : Verdict :=
  if 70 ≤ score then .genuine
  else if 40 ≤ score then .suspicious
  else .likely_fake

/-- The four sub-scores of a verification. -/
structure AnalysisScores where
  responseTime : ℝ
  timeVariance : ℝ
  consistency : ℝ
  participation : ℝ

/-- The overall score before rounding: the weighted average with the fixed
weights 0.25 / 0.25 / 0.25 / 0.25 of `analyzeSwarm`. -/
noncomputable def rawOverallScore (scores : AnalysisScores) : ℝ :=
  scores.responseTime * 0.25 + scores.timeVariance * 0.25 +
    scores.consistency * 0.25 + scores.participation * 0.25

/-- The four sub-scores `analyzeSwarm` computes for a response set against
`agents.length` requested agents. -/
noncomputable def analysisScoresOf (agents : List Agent)
    (responses : List ChallengeResponse) : AnalysisScores :=
  { responseTime := scoreResponseTime responses
    timeVariance := scoreTimeVariance responses
    consistency := scoreConsistency responses
    participation := scoreParticipation responses agents.length }

/-- A verification record. -/
structure SwarmVerification where
  id : String
  challengeId : String
  agents : List Agent
  responses : List ChallengeResponse
  scores : AnalysisScores
  overallScore : ℤ
  verdict : Verdict
  createdAt : Nat

/-- The scoring entry point `analyzeSwarm(agents, challenge, responses)`.  The ambient randomness of
`generateVerificationId` and the ambient clock are threaded as `vid` and
`now`.  Note that the code rounds the overall score for the record but feeds
the unrounded value to `getVerdict`. -/
noncomputable def analyzeSwarm (vid : String) (now : Nat) (agents : List Agent)
    (challenge : Challenge) (responses : List ChallengeResponse) :
    SwarmVerification :=
  let scores := analysisScoresOf agents responses
  let overallScore := rawOverallScore scores
  { id := vid, challengeId := challenge.id, agents := agents
    responses := responses, scores := scores
    overallScore := jsRound overallScore
    verdict := getVerdict overallScore, createdAt := now }

/-- Aggregate timing statistics of `calculateTimingStats`. -/
structure TimingStats where
  min : ℝ
  max : ℝ
  mean : ℝ
  stdDev : ℝ
  cv : ℝ

/-- The statistics `calculateTimingStats(latencies)`. -/
noncomputable def calculateTimingStats (latencies : List ℝ) : TimingStats :=
  if latencies.length = 0 then
    { min := 0, max := 0, mean := 0, stdDev := 0, cv := 0 }
  else
    let mn := (latencies.min?).getD 0
    let mx := (latencies.max?).getD 0
    let mean := listMean latencies
    let variance :=
      ((latencies.map fun l => (l - mean) ^ 2).sum) / (latencies.length : ℝ)
    let stdDev := Real.sqrt variance
    let cv := if mean > 0 then stdDev / mean else 0
    { min := mn, max := mx, mean := mean, stdDev := stdDev, cv := cv }

/-- The result record of `dispatchChallenge` (v2). -/
structure DispatchResult where
  responses : List ChallengeResponse
  totalAgents : Nat
  respondedCount : Nat
  avgLatencyMs : ℝ
  timingStats : TimingStats

/-- The dispatcher `dispatchChallenge(agents, challenge, timeoutMs)` (v2): fan out one
`challengeAgent` task per agent (all started at the dispatch clock `t0`),
join them all, and aggregate the statistics over successful responses. -/
noncomputable def dispatchChallenge (net : String → AttemptOutcome) (t0 : Nat)
    (agents : List Agent) (challenge : Challenge) (timeoutMs : Nat) :
    DispatchResult :=
  let responses := dispatchResponses net t0 agents challenge timeoutMs
  let successfulResponses := successNoErr responses
  let latencies := successfulResponses.map fun r => (r.latencyMs : ℝ)
  let avgLatency := if 0 < latencies.length then listMean latencies else 0
  { responses := responses
    totalAgents := agents.length
    respondedCount := successfulResponses.length
    avgLatencyMs := avgLatency
    timingStats := calculateTimingStats latencies }

/-! Example data. -/

/-- A challenge with a 10 s timeout. -/
def chEx : Challenge :=
  { id := "ch_1", type := "parallel", prompt := "What is 7 * 13?"
    createdAt := 0, expiresAt := 10000, targetAgents := [] }

/-- A challenge generated with a 1 s timeout: it expires at time 1000. -/
def chShort : Challenge :=
  { id := "ch_2", type := "parallel", prompt := "Name a primary color."
    createdAt := 0, expiresAt := 1000, targetAgents := [] }

/-- Four agents with endpoints. -/
def agents4 : List Agent :=
  [{ id := "a1", name := "A1", endpoint := some "http://h1" },
   { id := "a2", name := "A2", endpoint := some "http://h2" },
   { id := "a3", name := "A3", endpoint := some "http://h3" },
   { id := "a4", name := "A4", endpoint := some "http://h4" }]

/-- Two agents, the second without an endpoint. -/
def agents2 : List Agent :=
  [{ id := "a1", name := "A1", endpoint := some "http://h1" },
   { id := "a2", name := "A2", endpoint := none }]

/-- A network where every request fails at once at the transport level. -/
def netFail : String → AttemptOutcome := fun _ => .netError 5

/-- A network where every request would take 10 s and then fail. -/
def netSlow : String → AttemptOutcome := fun _ => .netError 10000

/-- A successful response with the given agent id, latency and text. -/
def okResp (aid : String) (lat : Nat) (text : String) : ChallengeResponse :=
  { challengeId := "ch_1", agentId := aid, response := text
    receivedAt := lat, latencyMs := lat }

/-- A failed response record as the dispatcher produces it. -/
def errResp (aid : String) : ChallengeResponse :=
  { challengeId := "ch_1", agentId := aid, response := ""
    receivedAt := 0, latencyMs := 0
    error := some "All endpoint variants failed" }

/-- Response set for the verdict boundary: two successes with latency
1400 ms and token-disjoint equal-length texts, two failures.  Sub-scores
88 / 100 / 40 / 50, raw overall 69.5. -/
def rsBoundary : List ChallengeResponse :=
  [okResp "a1" 1400 "a b", okResp "a2" 1400 "c d",
   errResp "a3", errResp "a4"]

/-- Four identical successes: with only two requested agents the
participation score is 200. -/
def rsOverfull : List ChallengeResponse :=
  [okResp "a1" 100 "a", okResp "a2" 100 "a",
   okResp "a3" 100 "a", okResp "a4" 100 "a"]

/-- Exactly one successful response. -/
def rsOneSuccess : List ChallengeResponse :=
  [okResp "a1" 100 "x", errResp "a2"]

/-- Two error-free responses whose texts are empty. -/
def rsEmptyTexts : List ChallengeResponse :=
  [okResp "a1" 100 "", okResp "a2" 200 ""]

end Swarm

/-! Theorems. -/

namespace SwarmContract

/-- Claim C7, amended: a `commit` call succeeds if and only if the challenge
exists, the current block height is *at or before* (not strictly before) the
challenge's commit deadline, and the calling agent's stored commit hash for
that challenge is zero; in particular a second commit after a commit with a
nonzero hash reverts, so a nonzero stored commit hash is never overwritten
or retracted. -/
theorem commit_ok_iff (st : ContractState) (blk : Nat) (sender : Addr)
    (cid h : Word) :
    callOk (commit st blk sender cid h) = true ↔
      0 < (st.challenges cid).startBlock ∧
        blk ≤ (st.challenges cid).commitDeadline ∧
        (st.commitments cid sender).commitHash = 0 := by
  simp only [commit]
  split_ifs with h1 h2 h3 <;> simp only [callOk] <;> simp_all <;> omega

/-- Claim C7, counterexample: with the commit deadline at block 5, a `commit`
at block height exactly 5 succeeds, although block 5 is not strictly before
the deadline — the claim's "strictly before" predicts a revert here. -/
theorem commit_at_deadline_succeeds :
    callOk (commit stCommitEx 5 2 1 7) = true ∧
      ¬ 5 < (stCommitEx.challenges 1).commitDeadline := by decide

/-- Claim C8: a `reveal` call succeeds if and only if the block height is
strictly after the commit deadline and at most the reveal deadline, the
caller has committed (a nonzero stored commit hash), has not yet revealed,
and the hash of (answer, salt) equals the stored commit hash exactly.  The
hypothesis is the Solidity mapping invariant that a never-created challenge
record is all zeros (so its window is empty); `Except.error` models a
revert, which leaves the caller's state unchanged by construction. -/
theorem reveal_ok_iff (kp : Word → Word → Word) (st : ContractState)
    (blk : Nat) (sender : Addr) (cid answer salt : Word)
    (hwf : (st.challenges cid).startBlock = 0 →
      (st.challenges cid).commitDeadline = 0 ∧
        (st.challenges cid).revealDeadline = 0) :
    callOk (reveal kp st blk sender cid answer salt) = true ↔
      (st.challenges cid).commitDeadline < blk ∧
        blk ≤ (st.challenges cid).revealDeadline ∧
        (st.commitments cid sender).commitHash ≠ 0 ∧
        (st.commitments cid sender).revealed = false ∧
        kp answer salt = (st.commitments cid sender).commitHash := by
  simp only [reveal]
  split_ifs with h1 h2 h3 h4 h5 h6 <;> simp only [callOk] <;> simp_all <;>
    omega

/-- Claim C8, witness: in `stRevealW` at block 6 the committed agent 2
reveals successfully with the additive hash model (40 + 2 = 42). -/
theorem reveal_ok_iff_witness :
    callOk (reveal (fun a s => a + s) stRevealW 6 2 1 40 2) = true :=
  (reveal_ok_iff (fun a s => a + s) stRevealW 6 2 1 40 2
    (by decide)).mpr (by decide)

theorem finalizeLoop_eq (st : ContractState) (cid : Word) :
    ∀ (l : List Addr) (mB xB rC : Nat),
      finalizeLoop st cid l (mB, xB, rC) =
        (l.foldl (fun m a => min m (st.commitments cid a).commitBlock) mB,
         l.foldl (fun m a => max m (st.commitments cid a).commitBlock) xB,
         rC + l.countP fun a => (st.commitments cid a).revealed)
  | [], mB, xB, rC => by simp [finalizeLoop]
  | a :: rest, mB, xB, rC => by
    have hmin :
        (if (st.commitments cid a).commitBlock < mB then
          (st.commitments cid a).commitBlock else mB) =
          min mB (st.commitments cid a).commitBlock := by
      rw [Nat.min_def]; split_ifs <;> omega
    have hmax :
        (if (st.commitments cid a).commitBlock > xB then
          (st.commitments cid a).commitBlock else xB) =
          max xB (st.commitments cid a).commitBlock := by
      rw [Nat.max_def]; split_ifs <;> omega
    simp only [finalizeLoop, List.foldl_cons, List.countP_cons, hmin, hmax]
    rw [finalizeLoop_eq st cid rest]
    by_cases hr : (st.commitments cid a).revealed <;> simp [hr] <;> omega

theorem foldl_min_const (b : Nat) :
    ∀ l : List Nat, (∀ x ∈ l, b ≤ x) → l.foldl min b = b
  | [], _ => rfl
  | x :: xs, h => by
    have hx : min b x = b := by
      have := h x (by simp)
      omega
    simpa [hx] using foldl_min_const b xs fun y hy => h y (by simp [hy])

theorem foldl_min_eq (b : Nat) :
    ∀ (l : List Nat) (init : Nat), b ∈ l → (∀ x ∈ l, b ≤ x) → b ≤ init →
      l.foldl min init = b
  | [], _, hb, _, _ => by simp at hb
  | x :: xs, init, hb, hle, hinit => by
    rcases List.mem_cons.mp hb with hbx | hbxs
    · subst hbx
      have h1 : min init b = b := by omega
      simp only [List.foldl_cons, h1]
      exact foldl_min_const b xs fun y hy => hle y (by simp [hy])
    · have hbx : b ≤ x := hle x (by simp)
      have : b ≤ min init x := by omega
      simp only [List.foldl_cons]
      exact foldl_min_eq b xs (min init x) hbxs
        (fun y hy => hle y (by simp [hy])) this

theorem foldl_max_const (b : Nat) :
    ∀ l : List Nat, (∀ x ∈ l, x ≤ b) → l.foldl max b = b
  | [], _ => rfl
  | x :: xs, h => by
    have hx : max b x = b := by
      have := h x (by simp)
      omega
    simpa [hx] using foldl_max_const b xs fun y hy => h y (by simp [hy])

theorem foldl_max_eq (b : Nat) :
    ∀ (l : List Nat) (init : Nat), b ∈ l → (∀ x ∈ l, x ≤ b) → init ≤ b →
      l.foldl max init = b
  | [], _, hb, _, _ => by simp at hb
  | x :: xs, init, hb, hle, hinit => by
    rcases List.mem_cons.mp hb with hbx | hbxs
    · subst hbx
      have h1 : max init b = b := by omega
      simp only [List.foldl_cons, h1]
      exact foldl_max_const b xs fun y hy => hle y (by simp [hy])
    · have hbx : x ≤ b := hle x (by simp)
      have : max init x ≤ b := by omega
      simp only [List.foldl_cons]
      exact foldl_max_eq b xs (max init x) hbxs
        (fun y hy => hle y (by simp [hy])) this

/-- Claim C9, amended: when `finalize` succeeds, the recorded score is
computed with Solidity integer division — `spreadScore / 2 + revealScore / 2`
with `revealScore = revealedCount * 100 / participantCount` — rather than
the exact `0.5 × spread-score + 0.5 × reveal-rate`; the spread bands and the
zero-participant case are as the claim states them.  `minB`/`maxB` range
over any stated minimum and maximum of the participants' commit blocks; the
bound hypothesis is the `uint64` range of block heights. -/
theorem finalize_score_formula (st : ContractState) (blk : Nat)
    (sender : Addr) (cid : Word) (st' : ContractState)
    (hok : finalize st blk sender cid = .ok st')
    (hbound : ∀ b ∈ commitBlocksOf st cid, b ≤ UINT64_MAX) :
    (st.participants cid = [] → (st'.challenges cid).score = 0) ∧
      (∀ minB maxB : Nat,
        minB ∈ commitBlocksOf st cid →
        (∀ b ∈ commitBlocksOf st cid, minB ≤ b) →
        maxB ∈ commitBlocksOf st cid →
        (∀ b ∈ commitBlocksOf st cid, b ≤ maxB) →
        (st'.challenges cid).score =
          spreadScoreOf (maxB - minB) / 2 +
            revealedCountOf st cid * 100 / (st.participants cid).length / 2) := by
  simp only [finalize] at hok
  split_ifs at hok with h1 h2 h3 h4 h5
  · -- zero participants
    rw [Except.ok.injEq] at hok
    subst hok
    constructor
    · intro _; simp
    · intro minB maxB hmem _ _ _
      have : st.participants cid = [] := List.length_eq_zero.mp h5
      simp [commitBlocksOf, this] at hmem
  · -- at least one participant
    rw [Except.ok.injEq] at hok
    subst hok
    constructor
    · intro h; simp [h] at h5
    · intro minB maxB hminMem hminLb hmaxMem hmaxUb
      have hne : st.participants cid ≠ [] := fun h => h5 (by simp [h])
      have hloop := finalizeLoop_eq st cid (st.participants cid) UINT64_MAX 0 0
      have hminB : minB ≤ UINT64_MAX := hbound minB hminMem
      have hmin :
          (st.participants cid).foldl
            (fun m a => min m (st.commitments cid a).commitBlock) UINT64_MAX =
            minB := by
        have := foldl_min_eq minB (commitBlocksOf st cid) UINT64_MAX hminMem
          hminLb hminB
        simpa [commitBlocksOf, List.foldl_map] using this
      have hmax :
          (st.participants cid).foldl
            (fun m a => max m (st.commitments cid a).commitBlock) 0 = maxB := by
        have := foldl_max_eq maxB (commitBlocksOf st cid) 0 hmaxMem hmaxUb
          (Nat.zero_le _)
        simpa [commitBlocksOf, List.foldl_map] using this
      have hcnt : revealedCountOf st cid ≤ (st.participants cid).length :=
        List.countP_le_length _
      have hrate :
          revealedCountOf st cid * 100 / (st.participants cid).length ≤ 100 := by
        have hlen : 0 < (st.participants cid).length :=
          List.length_pos.mpr hne
        have h100 : revealedCountOf st cid * 100 ≤
            (st.participants cid).length * 100 :=
          Nat.mul_le_mul_right 100 hcnt
        calc revealedCountOf st cid * 100 / (st.participants cid).length
            ≤ (st.participants cid).length * 100 / (st.participants cid).length :=
              Nat.div_le_div_right h100
          _ = 100 := by
              rw [Nat.mul_comm]
              exact Nat.mul_div_cancel 100 hlen
      have hmod :
          revealedCountOf st cid * 100 / (st.participants cid).length % 256 =
            revealedCountOf st cid * 100 / (st.participants cid).length :=
        Nat.mod_eq_of_lt (by omega)
      simp only [hloop, hmin, hmax, Nat.zero_add, revealedCountOf] at *
      simp [hmod, revealedCountOf]

/-- Claim C9, witness: in `stFinEx` (four participants all committed at block
5, one revealed) finalize at block 11 records the score given by the amended
integer formula: spread 0 gives 100, reveal score 25, hence
100 / 2 + 25 / 2 = 62. -/
theorem finalize_score_formula_witness :
    scoreAfter (finalize stFinEx 11 9 1) 1 = some 62 := by
  cases hok : finalize stFinEx 11 9 1 with
  | error e =>
    have hck : callOk (finalize stFinEx 11 9 1) = true := by decide
    rw [hok] at hck
    simp [callOk] at hck
  | ok st' =>
    have hs := (finalize_score_formula stFinEx 11 9 1 st' hok (by decide)).2
      5 5 (by decide) (by decide) (by decide) (by decide)
    have h62 : (st'.challenges 1).score = 62 := by rw [hs]; decide
    simp [scoreAfter, h62]

/-- Claim C9, counterexample: in `stFinEx` the recorded final score is 62,
but the claim's exact formula gives 0.5 × 100 + 0.5 × (1/4 × 100) = 62.5, so
the recorded score does not equal 0.5 × spread-score + 0.5 × reveal-rate. -/
theorem finalize_score_truncates :
    scoreAfter (finalize stFinEx 11 9 1) 1 = some 62 ∧
      ((62 : ℚ) ≠ 1 / 2 * 100 + 1 / 2 * (1 / 4 * 100)) := by
  constructor
  · decide
  · norm_num

end SwarmContract

namespace Swarm

theorem challengeAgent_shape (net : String → AttemptOutcome)
    (t0 tm : Nat) (a : Agent) (ch : Challenge) :
    (challengeAgent net t0 tm a ch).1.agentId = a.id ∧
      ((challengeAgent net t0 tm a ch).1.error = none ∨
        ((challengeAgent net t0 tm a ch).1.response = "" ∧
          (challengeAgent net t0 tm a ch).1.error.getD "" ≠ "")) := by
  unfold challengeAgent
  cases a.endpoint with
  | none => simp
  | some ep =>
    cases h : (runVariants net tm (getEndpointVariants ep) t0).1 with
    | none => simp [h]
    | some v => simp [h]

/-- Claim C3: for every network behaviour, dispatch time, agent list,
challenge and timeout, `dispatchChallenge` (v2) is a total function (the
model of "never throws") that returns exactly one response per requested
agent, in order, and every failed response carries empty text and a
non-empty error message; this holds even when every agent fails. -/
theorem dispatch_one_response_per_agent (net : String → AttemptOutcome)
    (t0 : Nat) (agents : List Agent) (ch : Challenge) (tm : Nat) :
    (dispatchChallenge net t0 agents ch tm).responses.length = agents.length ∧
      (dispatchChallenge net t0 agents ch tm).responses.map
          (fun r => r.agentId) = agents.map Agent.id ∧
      ∀ r ∈ (dispatchChallenge net t0 agents ch tm).responses,
        r.error = none ∨ (r.response = "" ∧ r.error.getD "" ≠ "") := by
  refine ⟨?_, ?_, ?_⟩
  · simp [dispatchChallenge, dispatchResponses]
  · simp only [dispatchChallenge, dispatchResponses, List.map_map]
    exact List.map_congr_left fun a _ =>
      (challengeAgent_shape net t0 tm a ch).1
  · intro r hr
    simp only [dispatchChallenge, dispatchResponses, List.mem_map] at hr
    obtain ⟨a, _, rfl⟩ := hr
    exact (challengeAgent_shape net t0 tm a ch).2

/-- Claim C3, witness: with a network where every request fails and one agent
lacking an endpoint, dispatch still returns one (failed) response per
agent. -/
theorem dispatch_one_response_per_agent_witness :
    (dispatchChallenge netFail 0 agents2 chEx 10000).responses.map
      (fun r => r.agentId) = ["a1", "a2"] :=
  (dispatch_one_response_per_agent netFail 0 agents2 chEx 10000).2.1

theorem runVariants_attempt_bound (net : String → AttemptOutcome) (tm : Nat) :
    ∀ (l : List String) (t : Nat),
      ∀ p ∈ (runVariants net tm l t).2.2, p.2 - p.1 ≤ tm
  | [], t => by simp [runVariants]
  | e :: rest, t => by
    intro p hp
    simp only [runVariants] at hp
    cases ho : net e with
    | netError d =>
      simp only [ho] at hp
      rcases List.mem_cons.mp hp with rfl | hmem
      · simp
      · exact runVariants_attempt_bound net tm rest _ p hmem
    | httpFail d =>
      simp only [ho] at hp
      rcases List.mem_cons.mp hp with rfl | hmem
      · simp
      · exact runVariants_attempt_bound net tm rest _ p hmem
    | httpOk d data hdr =>
      simp only [ho] at hp
      by_cases hd : d ≤ tm
      · simp only [hd, if_true, List.mem_singleton] at hp
        subst hp
        simp
        omega
      · simp only [hd, if_false] at hp
        rcases List.mem_cons.mp hp with rfl | hmem
        · simp
        · exact runVariants_attempt_bound net tm rest _ p hmem

/-- Claim C4, amended: each endpoint-variant attempt made by `challengeAgent`
(v2) is bounded by the *relative* per-attempt timeout `tm` (the `timeoutMs`
argument of `dispatchChallenge`, default 10000): every attempt interval
satisfies end − start ≤ tm.  The bound is measured from the attempt's own
start, not from the challenge's absolute expiry `challenge.expiresAt`, which
v2 never reads; the sequence of up to five attempts for one agent can
therefore continue past the challenge's expiry. -/
theorem challengeAgent_attempt_bound (net : String → AttemptOutcome)
    (t0 tm : Nat) (a : Agent) (ch : Challenge) :
    ∀ p ∈ (challengeAgent net t0 tm a ch).2, p.2 - p.1 ≤ tm := by
  unfold challengeAgent
  cases a.endpoint with
  | none => simp
  | some ep =>
    cases h : (runVariants net tm (getEndpointVariants ep) t0).1 with
    | none =>
      simp only [h]
      intro p hp
      exact runVariants_attempt_bound net tm (getEndpointVariants ep) t0 p hp
    | some v =>
      simp only [h]
      intro p hp
      exact runVariants_attempt_bound net tm (getEndpointVariants ep) t0 p hp

/-- Claim C4, witness: with the all-failing slow network, the first attempt
interval (0, 10000) respects the per-attempt bound 10000. -/
theorem challengeAgent_attempt_bound_witness :
    ((0, 10000) ∈
        (challengeAgent netSlow 0 10000
          { id := "a1", name := "A1", endpoint := some "http://h1" }
          chShort).2) ∧
      10000 - 0 ≤ 10000 :=
  ⟨by decide,
   challengeAgent_attempt_bound netSlow 0 10000
     { id := "a1", name := "A1", endpoint := some "http://h1" }
     chShort (0, 10000) (by decide)⟩

/-- Claim C4, counterexample: `chShort` expires at time 1000, but with each
of the five endpoint variants taking the full 10 s timeout, the agent's
attempt sequence runs to time 50000: the fifth attempt starts at 40000,
long after the challenge's expiry, and no attempt is aborted at the expiry
time — contradicting "no agent's sequence of attempts continues past the
challenge's expiry". -/
theorem challengeAgent_runs_past_expiry :
    (challengeAgent netSlow 0 10000
        { id := "a1", name := "A1", endpoint := some "http://h1" }
        chShort).2 =
      [(0, 10000), (10000, 20000), (20000, 30000), (30000, 40000),
        (40000, 50000)] ∧
      chShort.expiresAt = 1000 ∧ 1000 < 40000 := by decide

theorem nonce_range_card_le :
    (Set.range nonceOfBytes).ncard ≤ 2 ^ 32 := by
  calc (Set.range nonceOfBytes).ncard
      = (nonceOfBytes '' Set.univ).ncard := by rw [Set.image_univ]
    _ ≤ (Set.univ : Set (Fin 4 → Fin 256)).ncard :=
        Set.ncard_image_le Set.finite_univ
    _ = Fintype.card (Fin 4 → Fin 256) := by
        rw [Set.ncard_univ, Nat.card_eq_fintype_card]
    _ = 2 ^ 32 := by
        rw [Fintype.card_fun, Fintype.card_fin, Fintype.card_fin]
        norm_num

/-- Claim C6, counterexample: every nonce `generateNonce` can produce lies in
the range of `nonceOfBytes`, a set of at most 2^32 strings — strictly fewer
than the 2^128 values needed for 128 bits of entropy, so the nonce cannot
carry at least 128 bits of entropy. -/
theorem nonce_space_below_128_bits :
    (Set.range nonceOfBytes).ncard < 2 ^ 128 :=
  lt_of_le_of_lt nonce_range_card_le (by norm_num)

/-- Claim C6, amended: the nonce placed in every outbound challenge payload
comes from the crypto-strength generator but consumes only
`randomBytes(4)` — it is a function of the first four random bytes, so it
carries at most 32 bits of entropy (at most 2^32 possible values), not at
least 128 bits. -/
theorem nonce_is_four_random_bytes :
    (∀ (src : Nat → Fin 256) (now : Nat) (ch : Challenge),
        (createChallengePayload src now ch).nonce =
          nonceOfBytes fun i => src i.val) ∧
      (Set.range nonceOfBytes).ncard ≤ 2 ^ 32 :=
  ⟨fun _ _ _ => rfl, nonce_range_card_le⟩

theorem successNonEmpty_sub (rs : List ChallengeResponse) :
    (successNonEmpty rs).length ≤ (successNoErr rs).length := by
  have h : successNonEmpty rs =
      (successNoErr rs).filter fun r => r.response != "" := by
    simp only [successNonEmpty, successNoErr, List.filter_filter]
    exact List.filter_congr fun a _ => Bool.and_comm _ _
  rw [h]
  exact List.length_filter_le _ _

/-- Claim C5: with fewer than two successful (error-free) responses — in
particular with exactly one — both `scoreTimeVariance` and
`scoreConsistency` return the fixed neutral value 50 (they take their
guarded early branch instead of failing). -/
theorem neutral_scores_below_two_successes (rs : List ChallengeResponse)
    (h : (successNoErr rs).length < 2) :
    scoreTimeVariance rs = 50 ∧ scoreConsistency rs = 50 := by
  constructor
  · simp only [scoreTimeVariance]
    rw [if_pos h]
  · have h2 : (successNonEmpty rs).length < 2 :=
      lt_of_le_of_lt (successNonEmpty_sub rs) h
    simp only [scoreConsistency]
    rw [if_pos h2]

/-- Claim C5, witness: a response set with exactly one successful response
scores 50 on time variance and 50 on consistency. -/
theorem neutral_scores_below_two_successes_witness :
    (successNoErr rsOneSuccess).length < 2 ∧
      scoreTimeVariance rsOneSuccess = 50 ∧
        scoreConsistency rsOneSuccess = 50 :=
  ⟨by decide, neutral_scores_below_two_successes rsOneSuccess (by decide)⟩

/-- Claim C10: `scoreConsistency` keeps only error-free responses with
non-empty text, so a response set whose error-free responses all have empty
text yields the neutral consistency score 50 even when there are two or
more of them; those same responses are still counted as successful by
`scoreParticipation` (participation = successful count ÷ total agents ×
100) and pass `scoreTimeVariance`'s error-only filter. -/
theorem consistency_excludes_empty_texts (rs : List ChallengeResponse)
    (n : Nat) (h2 : 2 ≤ (successNoErr rs).length)
    (hEmpty : ∀ r ∈ rs, r.error = none → r.response = "") :
    scoreConsistency rs = 50 ∧
      successNonEmpty rs = [] ∧
      scoreParticipation rs n = ((successNoErr rs).length : ℝ) / n * 100 ∧
      ¬ (successNoErr rs).length < 2 := by
  have hne : successNonEmpty rs = [] := by
    rw [successNonEmpty, List.filter_eq_nil_iff]
    intro r hr
    by_cases he : r.error = none
    · have := hEmpty r hr he
      simp [he, this]
    · simp [Option.isNone_iff_eq_none, he]
  refine ⟨?_, hne, rfl, by omega⟩
  simp only [scoreConsistency]
  rw [if_pos (by rw [hne]; simp)]

/-- Claim C10, witness: two error-free empty-text responses out of two
agents: consistency is 50 while participation still counts both. -/
theorem consistency_excludes_empty_texts_witness :
    (2 ≤ (successNoErr rsEmptyTexts).length ∧
        (∀ r ∈ rsEmptyTexts, r.error = none → r.response = "")) ∧
      scoreConsistency rsEmptyTexts = 50 ∧
        successNonEmpty rsEmptyTexts = [] ∧
        scoreParticipation rsEmptyTexts 2 =
          ((successNoErr rsEmptyTexts).length : ℝ) / 2 * 100 ∧
        ¬ (successNoErr rsEmptyTexts).length < 2 :=
  ⟨⟨by decide, by decide⟩,
   consistency_excludes_empty_texts rsEmptyTexts 2 (by decide) (by decide)⟩

/-- Claim C1, amended: the verdict `analyzeSwarm` records is a pure function
of the *unrounded* overall score (the mean of the four sub-scores before
`Math.round`): genuine iff that raw score is ≥ 70, suspicious iff it is in
[40, 70), likely_fake iff it is < 40; the recorded `overallScore` is the
rounded raw score, so at half-integer boundary inputs (raw score in
[69.5, 70) or [39.5, 40)) the verdict sits one category below the band of
the recorded integer score. -/
theorem analyzeSwarm_verdict_of_raw (vid : String) (now : Nat)
    (agents : List Agent) (ch : Challenge) (rs : List ChallengeResponse) :
    ((analyzeSwarm vid now agents ch rs).verdict = Verdict.genuine ↔
        70 ≤ rawOverallScore (analysisScoresOf agents rs)) ∧
      ((analyzeSwarm vid now agents ch rs).verdict = Verdict.suspicious ↔
        40 ≤ rawOverallScore (analysisScoresOf agents rs) ∧
          rawOverallScore (analysisScoresOf agents rs) < 70) ∧
      ((analyzeSwarm vid now agents ch rs).verdict = Verdict.likely_fake ↔
        rawOverallScore (analysisScoresOf agents rs) < 40) ∧
      (analyzeSwarm vid now agents ch rs).overallScore =
        jsRound (rawOverallScore (analysisScoresOf agents rs)) := by
  have hov : (analyzeSwarm vid now agents ch rs).verdict =
      getVerdict (rawOverallScore (analysisScoresOf agents rs)) := rfl
  have hos : (analyzeSwarm vid now agents ch rs).overallScore =
      jsRound (rawOverallScore (analysisScoresOf agents rs)) := rfl
  refine ⟨?_, ?_, ?_, hos⟩ <;>
    rw [hov] <;> unfold getVerdict <;> split_ifs with h1 h2 <;> simp_all <;>
    linarith

theorem listMean_nonneg (l : List ℝ) (h : ∀ x ∈ l, 0 ≤ x) : 0 ≤ listMean l :=
  div_nonneg (List.sum_nonneg h) (Nat.cast_nonneg _)

theorem list_sum_le_length (l : List ℝ) (h : ∀ x ∈ l, x ≤ 1) :
    l.sum ≤ l.length := by
  induction l with
  | nil => simp
  | cons x xs ih =>
    simp only [List.sum_cons, List.length_cons]
    push_cast
    have hx := h x (by simp)
    have hxs := ih fun y hy => h y (by simp [hy])
    linarith

theorem latencies_nonneg (rs : List ChallengeResponse) :
    ∀ x ∈ (successNoErr rs).map fun r => (r.latencyMs : ℝ), 0 ≤ x := by
  intro x hx
  simp only [List.mem_map] at hx
  obtain ⟨r, _, rfl⟩ := hx
  positivity

theorem scoreResponseTime_mem (rs : List ChallengeResponse) :
    0 ≤ scoreResponseTime rs ∧ scoreResponseTime rs ≤ 100 := by
  simp only [scoreResponseTime]
  by_cases h0 : (successNoErr rs).length = 0
  · rw [if_pos h0]
    norm_num
  · rw [if_neg h0]
    have havg0 : 0 ≤ listMean ((successNoErr rs).map fun r => (r.latencyMs : ℝ)) :=
      listMean_nonneg _ (latencies_nonneg rs)
    set avg := listMean ((successNoErr rs).map fun r => (r.latencyMs : ℝ))
    split_ifs with h1 h2 h3
    · norm_num
    · push_neg at h1
      have hd0 : 0 ≤ (2000 - avg) / 75 := div_nonneg (by linarith) (by norm_num)
      have hd1 : (2000 - avg) / 75 ≤ 20 := by
        rw [div_le_iff (by norm_num : (0:ℝ) < 75)]
        linarith
      constructor <;> linarith
    · push_neg at h1 h2
      have hd0 : 0 ≤ (5000 - avg) / 100 := div_nonneg (by linarith) (by norm_num)
      have hd1 : (5000 - avg) / 100 ≤ 30 := by
        rw [div_le_iff (by norm_num : (0:ℝ) < 100)]
        linarith
      constructor <;> linarith
    · push_neg at h1 h2 h3
      have hd0 : 0 ≤ (avg - 5000) / 200 := div_nonneg (by linarith) (by norm_num)
      exact ⟨le_max_left _ _, max_le (by norm_num) (by linarith)⟩

theorem scoreTimeVariance_mem (rs : List ChallengeResponse) :
    0 ≤ scoreTimeVariance rs ∧ scoreTimeVariance rs ≤ 100 := by
  simp only [scoreTimeVariance]
  by_cases h0 : (successNoErr rs).length < 2
  · rw [if_pos h0]
    norm_num
  · rw [if_neg h0]
    have havg0 : 0 ≤ listMean ((successNoErr rs).map fun r => (r.latencyMs : ℝ)) :=
      listMean_nonneg _ (latencies_nonneg rs)
    set latencies := (successNoErr rs).map fun r => (r.latencyMs : ℝ)
    set avg := listMean latencies
    set cv := Real.sqrt
        ((latencies.map fun l => (l - avg) ^ 2).sum / (latencies.length : ℝ)) /
      avg with hcv
    have hcv0 : 0 ≤ cv := div_nonneg (Real.sqrt_nonneg _) havg0
    split_ifs with h1 h2 h3 h4
    · norm_num
    · push_neg at h1
      constructor <;> linarith
    · push_neg at h1 h2
      constructor <;> linarith
    · push_neg at h1 h2 h3
      constructor <;> linarith
    · push_neg at h1 h2 h3 h4
      exact ⟨le_max_left _ _, max_le (by norm_num) (by linarith)⟩

theorem scoreConsistency_mem (rs : List ChallengeResponse) :
    0 ≤ scoreConsistency rs ∧ scoreConsistency rs ≤ 100 := by
  simp only [scoreConsistency]
  by_cases h0 : (successNonEmpty rs).length < 2
  · rw [if_pos h0]
    norm_num
  · rw [if_neg h0]
    set lengths := (successNonEmpty rs).map fun r => (r.response.length : ℝ)
    set avgLength := listMean lengths with havgLen
    set lengthCV := if avgLength > 0 then
        Real.sqrt ((lengths.map fun l => (l - avgLength) ^ 2).sum /
          (lengths.length : ℝ)) / avgLength
      else (1 : ℝ) with hlcv
    have hcv0 : 0 ≤ lengthCV := by
      rw [hlcv]
      split_ifs with h
      · exact div_nonneg (Real.sqrt_nonneg _) h.le
      · norm_num
    set pairs := (listPairs ((successNonEmpty rs).map fun r =>
        tokensOf r.response)).filter fun p => (p.1 ∪ p.2).card ≠ 0 with hpairs
    have hterm : ∀ x ∈ pairs.map fun p =>
        ((p.1 ∩ p.2).card : ℝ) / ((p.1 ∪ p.2).card : ℝ), 0 ≤ x ∧ x ≤ 1 := by
      intro x hx
      simp only [List.mem_map] at hx
      obtain ⟨p, hp, rfl⟩ := hx
      rw [hpairs] at hp
      have hu : (p.1 ∪ p.2).card ≠ 0 := by
        have h2 := (List.mem_filter.mp hp).2
        simpa using h2
      have hupos : (0:ℝ) < ((p.1 ∪ p.2).card : ℝ) := by
        have : 0 < (p.1 ∪ p.2).card := Nat.pos_of_ne_zero hu
        exact_mod_cast this
      constructor
      · exact div_nonneg (Nat.cast_nonneg _) hupos.le
      · rw [div_le_one hupos]
        exact_mod_cast Finset.card_le_card Finset.inter_subset_union
    have hsum0 : 0 ≤ (pairs.map fun p =>
        ((p.1 ∩ p.2).card : ℝ) / ((p.1 ∪ p.2).card : ℝ)).sum :=
      List.sum_nonneg fun x hx => (hterm x hx).1
    have hsumlen : (pairs.map fun p =>
        ((p.1 ∩ p.2).card : ℝ) / ((p.1 ∪ p.2).card : ℝ)).sum ≤ pairs.length := by
      have := list_sum_le_length _ fun x hx => (hterm x hx).2
      simpa using this
    have hov : 0 ≤ (if 0 < pairs.length then (pairs.map fun p =>
          ((p.1 ∩ p.2).card : ℝ) / ((p.1 ∪ p.2).card : ℝ)).sum /
            (pairs.length : ℝ) else 0) ∧
        (if 0 < pairs.length then (pairs.map fun p =>
          ((p.1 ∩ p.2).card : ℝ) / ((p.1 ∪ p.2).card : ℝ)).sum /
            (pairs.length : ℝ) else 0) ≤ 1 := by
      split_ifs with h
      · have hl : (0:ℝ) < (pairs.length : ℝ) := by exact_mod_cast h
        constructor
        · exact div_nonneg hsum0 hl.le
        · rw [div_le_one hl]
          exact hsumlen
      · norm_num
    have hls0 : (0:ℝ) ≤ max 0 (100 - lengthCV * 100) := le_max_left _ _
    have hls1 : max 0 (100 - lengthCV * 100) ≤ 100 :=
      max_le (by norm_num) (by linarith)
    constructor
    · linarith [hov.1, hls0]
    · linarith [hov.2, hls1, hov.1, hls0]

theorem scoreParticipation_mem (rs : List ChallengeResponse) (n : Nat)
    (hn : 0 < n) (hk : (successNoErr rs).length ≤ n) :
    0 ≤ scoreParticipation rs n ∧ scoreParticipation rs n ≤ 100 := by
  have hnpos : (0:ℝ) < (n : ℝ) := by exact_mod_cast hn
  constructor
  · exact mul_nonneg (div_nonneg (by positivity) hnpos.le) (by norm_num)
  · have h1 : ((successNoErr rs).length : ℝ) / n ≤ 1 := by
      rw [div_le_one hnpos]
      exact_mod_cast hk
    calc ((successNoErr rs).length : ℝ) / n * 100 ≤ 1 * 100 := by
          apply mul_le_mul_of_nonneg_right h1
          norm_num
      _ = 100 := by norm_num

/-- Claim C2, amended: the recorded `overallScore` is the unweighted mean of
the four sub-scores (the 0.25 weights) rounded half-up, and it lies in
[0, 100] *provided* the response set is one the dispatcher can produce: at
most one (successful) response per requested agent, a non-empty agent list,
and positive measured latencies (all-zero latencies would make the
JavaScript coefficient of variation NaN; with more successful responses
than agents the participation sub-score, and hence the overall score,
exceeds 100). -/
theorem analyzeSwarm_overall_mean_in_range (vid : String) (now : Nat)
    (agents : List Agent) (ch : Challenge) (rs : List ChallengeResponse)
    (hagents : agents ≠ [])
    (hpos : ∀ r ∈ successNoErr rs, 0 < r.latencyMs)
    (hcount : (successNoErr rs).length ≤ agents.length) :
    (analyzeSwarm vid now agents ch rs).overallScore =
        jsRound ((scoreResponseTime rs + scoreTimeVariance rs +
          scoreConsistency rs + scoreParticipation rs agents.length) / 4) ∧
      0 ≤ (analyzeSwarm vid now agents ch rs).overallScore ∧
      (analyzeSwarm vid now agents ch rs).overallScore ≤ 100 := by
  have hmean : rawOverallScore (analysisScoresOf agents rs) =
      (scoreResponseTime rs + scoreTimeVariance rs + scoreConsistency rs +
        scoreParticipation rs agents.length) / 4 := by
    simp only [rawOverallScore, analysisScoresOf]
    ring
  have hos : (analyzeSwarm vid now agents ch rs).overallScore =
      jsRound (rawOverallScore (analysisScoresOf agents rs)) := rfl
  have h1 := scoreResponseTime_mem rs
  have h2 := scoreTimeVariance_mem rs
  have h3 := scoreConsistency_mem rs
  have hn : 0 < agents.length := List.length_pos.mpr hagents
  have h4 := scoreParticipation_mem rs agents.length hn hcount
  have hraw0 : 0 ≤ rawOverallScore (analysisScoresOf agents rs) := by
    rw [hmean]
    have := h1.1
    have := h2.1
    have := h3.1
    have := h4.1
    linarith
  have hraw100 : rawOverallScore (analysisScoresOf agents rs) ≤ 100 := by
    rw [hmean]
    have := h1.2
    have := h2.2
    have := h3.2
    have := h4.2
    linarith
  refine ⟨by rw [hos, hmean], ?_, ?_⟩
  · rw [hos]
    exact Int.le_floor.mpr (by push_cast; linarith)
  · rw [hos]
    have hfl : ((jsRound (rawOverallScore (analysisScoresOf agents rs))) : ℝ) ≤
        rawOverallScore (analysisScoresOf agents rs) + 1 / 2 :=
      Int.floor_le _
    have : ((jsRound (rawOverallScore (analysisScoresOf agents rs))) : ℝ) <
        ((101 : ℤ) : ℝ) := by
      push_cast
      linarith
    have := Int.cast_lt.mp this
    omega

/-- Claim C2, witness: two agents, one successful response with latency
100 ms: the dispatcher-shaped hypotheses hold and the overall score lies in
[0, 100]. -/
theorem analyzeSwarm_overall_mean_in_range_witness :
    (agents2 ≠ [] ∧ (∀ r ∈ successNoErr rsOneSuccess, 0 < r.latencyMs) ∧
        (successNoErr rsOneSuccess).length ≤ agents2.length) ∧
      0 ≤ (analyzeSwarm "v" 0 agents2 chEx rsOneSuccess).overallScore ∧
      (analyzeSwarm "v" 0 agents2 chEx rsOneSuccess).overallScore ≤ 100 :=
  ⟨⟨by decide, by decide, by decide⟩,
   (analyzeSwarm_overall_mean_in_range "v" 0 agents2 chEx rsOneSuccess
     (by decide) (by decide) (by decide)).2⟩

theorem rsBoundary_succ :
    successNoErr rsBoundary =
      [okResp "a1" 1400 "a b", okResp "a2" 1400 "c d"] := by decide

theorem rsBoundary_succNE :
    successNonEmpty rsBoundary =
      [okResp "a1" 1400 "a b", okResp "a2" 1400 "c d"] := by decide

theorem rsBoundary_responseTime : scoreResponseTime rsBoundary = 88 := by
  simp only [scoreResponseTime, rsBoundary_succ, List.map_cons, List.map_nil,
    okResp]
  norm_num [listMean]

theorem rsBoundary_timeVariance : scoreTimeVariance rsBoundary = 100 := by
  simp only [scoreTimeVariance, rsBoundary_succ, List.map_cons, List.map_nil,
    okResp]
  norm_num [listMean, Real.sqrt_zero]

theorem rsBoundary_tokens_inter :
    (tokensOf "a b" ∩ tokensOf "c d").card = 0 := by decide

theorem rsBoundary_tokens_union :
    (tokensOf "a b" ∪ tokensOf "c d").card = 4 := by decide

theorem rsBoundary_pairs :
    ((listPairs [tokensOf "a b", tokensOf "c d"]).filter
        fun p => (p.1 ∪ p.2).card ≠ 0) =
      [(tokensOf "a b", tokensOf "c d")] := by decide

theorem rsBoundary_consistency : scoreConsistency rsBoundary = 40 := by
  simp only [scoreConsistency, rsBoundary_succNE, List.map_cons, List.map_nil,
    okResp]
  rw [show ("a b".length) = 3 from rfl, show ("c d".length) = 3 from rfl,
    rsBoundary_pairs]
  simp only [List.map_cons, List.map_nil, List.sum_cons, List.sum_nil,
    List.length_cons, List.length_nil]
  rw [rsBoundary_tokens_inter, rsBoundary_tokens_union]
  norm_num [listMean, Real.sqrt_zero]

theorem rsBoundary_participation : scoreParticipation rsBoundary 4 = 50 := by
  rw [scoreParticipation, rsBoundary_succ]
  norm_num

/-- Claim C1, counterexample: for four agents with two successful, equally
fast, token-disjoint responses (sub-scores 88 / 100 / 40 / 50) the raw
overall score is 69.5: the record shows `overallScore = 70` (rounded) with
verdict suspicious, so the verdict is *not* genuine although the recorded
overallScore is ≥ 70 — `getVerdict` is applied to the unrounded score, not
the recorded one. -/
theorem verdict_boundary_mismatch :
    (analyzeSwarm "v" 0 agents4 chEx rsBoundary).overallScore = 70 ∧
      (analyzeSwarm "v" 0 agents4 chEx rsBoundary).verdict ≠
        Verdict.genuine := by
  have hraw : rawOverallScore (analysisScoresOf agents4 rsBoundary) =
      69.5 := by
    simp only [rawOverallScore, analysisScoresOf, rsBoundary_responseTime,
      rsBoundary_timeVariance, rsBoundary_consistency,
      show agents4.length = 4 from rfl, rsBoundary_participation]
    norm_num
  constructor
  · have hos : (analyzeSwarm "v" 0 agents4 chEx rsBoundary).overallScore =
        jsRound (rawOverallScore (analysisScoresOf agents4 rsBoundary)) := rfl
    rw [hos, hraw, jsRound,
      show (69.5 : ℝ) + 1 / 2 = ((70 : ℤ) : ℝ) by norm_num,
      Int.floor_intCast]
  · have hov : (analyzeSwarm "v" 0 agents4 chEx rsBoundary).verdict =
        getVerdict (rawOverallScore (analysisScoresOf agents4 rsBoundary)) :=
      rfl
    rw [hov, hraw, getVerdict,
      if_neg (by norm_num : ¬ (70:ℝ) ≤ 69.5),
      if_pos (by norm_num : (40:ℝ) ≤ 69.5)]
    simp

theorem rsOverfull_succ :
    successNoErr rsOverfull =
      [okResp "a1" 100 "a", okResp "a2" 100 "a",
        okResp "a3" 100 "a", okResp "a4" 100 "a"] := by decide

theorem rsOverfull_succNE :
    successNonEmpty rsOverfull =
      [okResp "a1" 100 "a", okResp "a2" 100 "a",
        okResp "a3" 100 "a", okResp "a4" 100 "a"] := by decide

theorem rsOverfull_responseTime : scoreResponseTime rsOverfull = 100 := by
  simp only [scoreResponseTime, rsOverfull_succ, List.map_cons, List.map_nil,
    okResp]
  norm_num [listMean]

theorem rsOverfull_timeVariance : scoreTimeVariance rsOverfull = 100 := by
  simp only [scoreTimeVariance, rsOverfull_succ, List.map_cons, List.map_nil,
    okResp]
  norm_num [listMean, Real.sqrt_zero]

theorem rsOverfull_tokens_inter :
    (tokensOf "a" ∩ tokensOf "a").card = 1 := by decide

theorem rsOverfull_tokens_union :
    (tokensOf "a" ∪ tokensOf "a").card = 1 := by decide

theorem rsOverfull_pairs :
    ((listPairs [tokensOf "a", tokensOf "a", tokensOf "a",
        tokensOf "a"]).filter fun p => (p.1 ∪ p.2).card ≠ 0) =
      [(tokensOf "a", tokensOf "a"), (tokensOf "a", tokensOf "a"),
        (tokensOf "a", tokensOf "a"), (tokensOf "a", tokensOf "a"),
        (tokensOf "a", tokensOf "a"), (tokensOf "a", tokensOf "a")] := by
  decide

theorem rsOverfull_consistency : scoreConsistency rsOverfull = 100 := by
  simp only [scoreConsistency, rsOverfull_succNE, List.map_cons, List.map_nil,
    okResp]
  rw [show ("a".length) = 1 from rfl, rsOverfull_pairs]
  simp only [List.map_cons, List.map_nil, List.sum_cons, List.sum_nil,
    List.length_cons, List.length_nil]
  rw [rsOverfull_tokens_inter, rsOverfull_tokens_union]
  norm_num [listMean, Real.sqrt_zero]

theorem rsOverfull_participation : scoreParticipation rsOverfull 2 = 200 := by
  rw [scoreParticipation, rsOverfull_succ]
  norm_num

/-- Claim C2, counterexample: with only two requested agents but four
successful responses, the participation sub-score is 200 and `analyzeSwarm`
records `overallScore = 125`, outside [0, 100] — the claim's "every list of
agents and every response set" fails when the response set is larger than
the agent set. -/
theorem overall_score_exceeds_100 :
    (analyzeSwarm "v" 0 agents2 chEx rsOverfull).overallScore = 125 ∧
      ¬ (analyzeSwarm "v" 0 agents2 chEx rsOverfull).overallScore ≤ 100 := by
  have hraw : rawOverallScore (analysisScoresOf agents2 rsOverfull) =
      125 := by
    simp only [rawOverallScore, analysisScoresOf, rsOverfull_responseTime,
      rsOverfull_timeVariance, rsOverfull_consistency,
      show agents2.length = 2 from rfl, rsOverfull_participation]
    norm_num
  have hos : (analyzeSwarm "v" 0 agents2 chEx rsOverfull).overallScore =
      jsRound (rawOverallScore (analysisScoresOf agents2 rsOverfull)) := rfl
  have h125 : (analyzeSwarm "v" 0 agents2 chEx rsOverfull).overallScore =
      125 := by
    rw [hos, hraw, jsRound]
    exact Int.floor_eq_iff.mpr ⟨by norm_num, by norm_num⟩
  exact ⟨h125, by rw [h125]; decide⟩

end Swarm
